import Mathlib

/-!
Verification of `generate_geoip_dat.js`: a shallow embedding of the script's
functions over `List Char` / `List Nat` (bytes), together with theorems about
the binary encoder, the code normalizer, the record parser and the driver.

Modelling conventions:
* JS strings are Lean `String`s; `.length`, `.substring` act on UTF-16 code
  units in JS, which for every string appearing in this program (BMP-only
  text) coincide with Lean's per-`Char` view.
* Node `Buffer`s are `List Nat` with every element `< 256` by construction.
* `String.prototype.split` with a one-character separator, `trim`, and
  `toUpperCase` are modelled by structurally recursive functions below;
  `toUpperCase` is modelled on ASCII (it is the identity on the CJK text the
  program handles, as in JS).
* `parseInt` is modelled exactly for inputs whose digits fit in an exact
  integer (JS doubles lose precision beyond 2^53; no input here comes close).
* `Buffer` element assignment coerces via ToUint8: NaN becomes 0, other
  numbers are truncated modulo 256 with a non-negative result.
* `buf.writeUInt32LE v` requires `0 ≤ v < 2^32` in Node (it throws
  otherwise); the model writes the 4 little-endian bytes and theorems about
  it carry the `< 2^32` bound where the value is not fixed by the program.
-/

namespace GeoIpDat

/-- JS `s.split(sep)` for a one-character separator, on the character list:
`"" → [""]`, separators at the ends produce empty fields. -/
def splitOnChar (sep : Char) : List Char → List (List Char)
  | [] => [[]]
  | c :: rest =>
    match splitOnChar sep rest with
    | [] => if c = sep then [[], []] else [[c]]
    | h :: t => if c = sep then [] :: h :: t else (c :: h) :: t

/-- JS `s.split(sep)` for a one-character separator. -/
def jsSplit (s : String) (sep : Char) : List String :=
  (splitOnChar sep s.toList).map List.asString

/-- JS `s.trim()`: strip leading and trailing whitespace. -/
def jsTrim (s : String) : String :=
  (((s.toList.dropWhile Char.isWhitespace).reverse.dropWhile
      Char.isWhitespace).reverse).asString

/-- JS `s.toUpperCase()` (ASCII case map; identity on the CJK text here). -/
def jsToUpperCase (s : String) : String :=
  (s.toList.map Char.toUpper).asString

/-- JS `s.substring(0, n)`: the first `n` UTF-16 units of `s`. -/
def jsSubstringTo (s : String) (n : Nat) : String :=
  (s.toList.take n).asString

/-- JS `x || y` on a possibly-undefined string `x`: `y` when `x` is
`undefined` or the (falsy) empty string, else `x`. -/
def jsOrElse (x : Option String) (y : String) : String :=
  match x with
  | some v => if v = "" then y else v
  | none => y

/-- JS array indexing `a[i] || d` composed: `i`-th element if present and
truthy, else `d`. -/
def jsGetD (l : List String) (i : Nat) (d : String) : String :=
  jsOrElse l[i]? d

/-- Value of a list of decimal digit characters. -/
def decValue (ds : List Char) : Nat :=
  ds.foldl (fun a c => a * 10 + (c.toNat - 48)) 0

/-- Value of a list of hexadecimal digit characters. -/
def hexValue (ds : List Char) : Nat :=
  ds.foldl (fun a c =>
    a * 16 + (if c.isDigit then c.toNat - 48
              else if 'a' ≤ c ∧ c ≤ 'f' then c.toNat - 87
              else c.toNat - 55)) 0

/-- Is `c` a hexadecimal digit character? -/
def isHexDigitChar (c : Char) : Bool :=
  c.isDigit || ('a' ≤ c && c ≤ 'f') || ('A' ≤ c && c ≤ 'F')

/-- JS `parseInt(s)` (no radix argument): skip whitespace, optional sign,
`0x`/`0X` selects hexadecimal, longest valid digit run; `none` is NaN. -/
def jsParseInt (s : String) : Option Int :=
  let cs := s.toList.dropWhile Char.isWhitespace
  let signAndRest : Int × List Char :=
    match cs with
    | '-' :: rest => (-1, rest)
    | '+' :: rest => (1, rest)
    | _ => (1, cs)
  let sign := signAndRest.1
  match signAndRest.2 with
  | '0' :: 'x' :: rest =>
    let ds := rest.takeWhile isHexDigitChar
    if ds.isEmpty then none else some (sign * (hexValue ds : Int))
  | '0' :: 'X' :: rest =>
    let ds := rest.takeWhile isHexDigitChar
    if ds.isEmpty then none else some (sign * (hexValue ds : Int))
  | other =>
    let ds := other.takeWhile Char.isDigit
    if ds.isEmpty then none else some (sign * (decValue ds : Int))

/-- Node `Buffer` element assignment `buf[i] = parseInt(part)`: ToUint8
coercion — NaN becomes 0, any other number is reduced modulo 256. -/
def jsByteOfPart (part : String) : Nat :=
  match jsParseInt part with
  | none => 0
  | some n => (n % 256).toNat

/-- Node `buf.writeUInt32LE v`: the 4 little-endian bytes of `v`. -/
def le32 (n : Nat) : List Nat :=
  [n % 256, n / 256 % 256, n / 65536 % 256, n / 16777216 % 256]

/-- UTF-8 encoding of one scalar value (`Buffer.from(str, 'utf-8')`). -/
def utf8EncodeChar (c : Char) : List Nat :=
  let n := c.toNat
  if n < 128 then [n]
  else if n < 2048 then [192 + n / 64, 128 + n % 64]
  else if n < 65536 then [224 + n / 4096, 128 + n / 64 % 64, 128 + n % 64]
  else [240 + n / 262144, 128 + n / 4096 % 64, 128 + n / 64 % 64,
        128 + n % 64]

/-- Node `Buffer.from(str, 'utf-8')` as a byte list. -/
def utf8Encode (s : String) : List Nat :=
  (s.toList.map utf8EncodeChar).flatten

/-- The script's static 汉字→code table (`pinyinMap`, source lines 6–50):
six carrier entries followed by 34 region entries, one shared object. -/
def pinyinMap : List (String × String) :=
  [("电信", "DX"), ("联通", "LT"), ("移动", "YD"), ("铁通", "TT"),
   ("华数", "HS"), ("未知", "UN"),
   ("北京", "BJ"), ("上海", "SH"), ("天津", "TJ"), ("重庆", "CQ"),
   ("广东", "GD"), ("浙江", "ZJ"), ("江苏", "JS"), ("山东", "SD"),
   ("福建", "FJ"), ("安徽", "AH"), ("河南", "HA"), ("湖北", "HB"),
   ("湖南", "HN"), ("江西", "JX"), ("四川", "SC"), ("陕西", "SN"),
   ("山西", "SX"), ("辽宁", "LN"), ("吉林", "JL"), ("黑龙江", "HL"),
   ("河北", "HE"), ("台湾", "TW"), ("海南", "HI"), ("甘肃", "GS"),
   ("宁夏", "NX"), ("青海", "QH"), ("新疆", "XJ"), ("西藏", "XZ"),
   ("内蒙古", "NM"), ("广西", "GX"), ("贵州", "GZ"), ("云南", "YN"),
   ("香港", "HK"), ("澳门", "MO")]

/-- JS property access `pinyinMap[k]`: `none` is `undefined`. -/
def pinyinMapGet (k : String) : Option String :=
  (pinyinMap.find? (fun p => p.1 = k)).map Prod.snd

/-- Source `getStandardCountryCode` (lines 52–58). -/
def getStandardCountryCode (countryName : String) : Option String :=
  if countryName = "中国" then some "CN" else none

/-- Source `getStandardRegionCode` (lines 60–62):
`pinyinMap[regionName] || regionName.substring(0, 3).toUpperCase()`. -/
def getStandardRegionCode (regionName : String) : String :=
  jsOrElse (pinyinMapGet regionName)
    (jsToUpperCase (jsSubstringTo regionName 3))

/-- Source `getIspCode` (lines 64–74). -/
def getIspCode (ispName : String) : String :=
  if 2 ≤ ispName.toList.length then
    jsOrElse (pinyinMapGet (jsSubstringTo ispName 2)) "UN"
  else if ispName.toList.length = 1 then
    jsOrElse (pinyinMapGet ispName) "UN"
  else "UN"

/-- Modelled from the spec: `getCityPinyin` (source lines 76–86) calls the
external `pinyin` npm package, whose dictionary is not part of this
repository.  Per the spec it "transliterates a city name into a
concatenated, tone-free phonetic romanization"; "undefined/unmapped
characters pass through untouched".  The per-character dictionary is
modelled for the characters the spec's examples use. -/
def pinyinChar (c : Char) : String :=
  if c = '深' then "shen"
  else if c = '圳' then "zhen"
  else if c = '北' then "bei"
  else if c = '京' then "jing"
  else String.singleton c

/-- Modelled from the spec: tone-free pinyin of a city name, concatenated
with no separators (see `pinyinChar`). -/
def getCityPinyin (cityName : String) : String :=
  String.join (cityName.toList.map pinyinChar)

/-- Source `createCountryCodes` (lines 88–115). -/
def createCountryCodes (countryName regionName cityName ipVersion
    ispDomain : String) : List String :=
  match getStandardCountryCode countryName with
  | none => []
  | some _ =>
    let region := getStandardRegionCode regionName
    let ispCode := getIspCode ispDomain
    let simplifiedFormat := ipVersion ++ "-" ++ ispCode ++ "-" ++ region
    if cityName ≠ "" ∧ cityName ≠ regionName then
      [simplifiedFormat,
       ipVersion ++ "-" ++ ispCode ++ "-" ++ region ++ "-" ++
         getCityPinyin cityName]
    else
      [simplifiedFormat]

/-- One parsed input record ({country, region, city, isp}). -/
structure ParsedFields where
  country : String
  region : String
  city : String
  ispDomain : String
deriving DecidableEq, Repr

/-- Source `parseIpdbEntry` (lines 117–131): split on tab, require at least
4 fields, `||`-fallbacks per field. -/
def parseIpdbEntry (dataEntry : String) : Option ParsedFields :=
  let parts := jsSplit dataEntry '\t'
  if parts.length < 4 then none
  else some
    { country := jsGetD parts 0 "未知"
      region := jsGetD parts 1 "未知"
      city := jsOrElse parts[2]? (parts[1]?.getD "")
      ispDomain := jsGetD parts 3 "未知" }

/-- The plain-text branch of the driver's per-line parsing (source lines
236–247): `line.trim().split('|')`, require at least 4 fields,
`parts[2] || region` and `parts[3] || "未知"` fallbacks. -/
def parsePlainLine (line : String) : Option ParsedFields :=
  let parts := jsSplit (jsTrim line) '|'
  if parts.length < 4 then none
  else some
    { country := parts[0]?.getD ""
      region := parts[1]?.getD ""
      city := jsOrElse parts[2]? (parts[1]?.getD "")
      ispDomain := jsOrElse parts[3]? "未知" }

/-- Source `writeString` (lines 133–138): 4-byte LE length of the UTF-8
bytes, then the bytes. -/
def writeString (str : String) : List Nat :=
  let strBuffer := utf8Encode str
  le32 strBuffer.length ++ strBuffer

/-- Source `writeCidr` (lines 140–159): 4 address bytes (each octet via
`parseInt` and Buffer byte coercion when the split has exactly 4 parts,
else four zero bytes), then the 4-byte LE prefix length. -/
def writeCidr (ip : String) (prefixLen : Nat) : List Nat :=
  let ipParts := jsSplit ip '.'
  let ipBuffer :=
    if ipParts.length = 4 then ipParts.map jsByteOfPart else [0, 0, 0, 0]
  ipBuffer ++ le32 prefixLen

/-- Source `writeGeoIpEntry` (lines 161–196): incremental `Buffer.concat`
of tag 1 + country string, one tagged length-prefixed block per CIDR, and
the tag-3 reverse_match byte 0. -/
def writeGeoIpEntry (countryCode : String) (cidrs : List (String × Nat)) :
    List Nat :=
  let buffer : List Nat := []
  let countryBuffer := writeString countryCode
  let buffer := buffer ++ [(1 <<< 3) ||| 2] ++ countryBuffer
  let buffer := cidrs.foldl (fun buf cidr =>
    let cidrBuffer := writeCidr cidr.1 cidr.2
    buf ++ [(2 <<< 3) ||| 2] ++ le32 cidrBuffer.length ++ cidrBuffer)
    buffer
  buffer ++ [(3 <<< 3) ||| 0] ++ [0]

/-- Node `path.extname`: the part of the basename from its last `.`
(empty when there is no dot or the basename's only dot is its first
character). -/
def jsExtname (p : String) : String :=
  let base := ((jsSplit p '/').getLastD "").toList
  let afterDot := (base.reverse.takeWhile (fun c => c ≠ '.')).reverse
  if afterDot.length = base.length then ""
  else if base.length = afterDot.length + 1 ∧ base.headD ' ' = '.' then ""
  else ('.' :: afterDot).asString

/-- The driver's per-line field extraction (source lines 221–247): tab
parsing via `parseIpdbEntry` for `.ipdb` inputs, pipe parsing otherwise. -/
def lineFields (isIpdb : Bool) (line : String) : Option ParsedFields :=
  if isIpdb then parseIpdbEntry (jsTrim line) else parsePlainLine line

/-- Country codes one line contributes (source lines 249–260): drop the
line unless its country is 中国, then `createCountryCodes` with IPv4. -/
def codesOfLine (isIpdb : Bool) (line : String) : List String :=
  match lineFields isIpdb line with
  | none => []
  | some f =>
    if f.country ≠ "中国" then []
    else createCountryCodes f.country f.region f.city "4" f.ispDomain

/-- The placeholder CIDR list pushed for every generated code
(source line 269). -/
def exampleCidrs : List (String × Nat) := [("192.168.1.0", 24)]

/-- The `entries` map as an insertion-ordered association list. -/
abbrev EntryTable : Type := List (String × List (String × Nat))

/-- Source `if (!entries.has(code)) entries.set(code, []); entries.get(code)
.push(...exampleCidrs)` (source lines 263–271). -/
def addEntry (entries : EntryTable) (code : String) : EntryTable :=
  if entries.any (fun e => e.1 = code) then
    entries.map (fun e => if e.1 = code then (e.1, e.2 ++ exampleCidrs) else e)
  else
    entries ++ [(code, exampleCidrs)]

/-- Process one input line against the entry table. -/
def processLine (isIpdb : Bool) (entries : EntryTable) (line : String) :
    EntryTable :=
  (codesOfLine isIpdb line).foldl addEntry entries

/-- The non-blank lines of the input text (source lines 209–218):
`data.split('\n').filter(line => line.trim() !== '')`. -/
def inputLines (data : String) : List String :=
  (jsSplit data '\n').filter (fun l => jsTrim l ≠ "")

/-- The fully built entry table for one input text. -/
def buildTable (isIpdb : Bool) (data : String) : EntryTable :=
  (inputLines data).foldl (processLine isIpdb) []

/-- Serialization of the entry table (source lines 274–286): the 4-byte LE
entry count, then each entry appended by incremental `Buffer.concat`. -/
def generateBytes (isIpdb : Bool) (data : String) : List Nat :=
  let entries := buildTable isIpdb data
  let fileBuffer : List Nat := []
  let fileBuffer := fileBuffer ++ le32 entries.length
  entries.foldl (fun buf e => buf ++ writeGeoIpEntry e.1 e.2) fileBuffer

/-- A file's content: input files are read as UTF-8 text, the output file
is written as raw bytes.  (The program never reads a file it wrote.) -/
inductive FileData where
  | text (s : String)
  | binary (b : List Nat)
deriving DecidableEq

/-- File system: an association list from path to content. -/
abbrev FS : Type := List (String × FileData)

/-- Node `fs.existsSync`. -/
def fsExists (fs : FS) (p : String) : Bool :=
  fs.any (fun e => e.1 = p)

/-- Node `fs.readFileSync(p, 'utf-8')` for a text file (the program only reads
its text input). -/
def fsReadText (fs : FS) (p : String) : String :=
  match fs.find? (fun e => e.1 = p) with
  | some (_, FileData.text s) => s
  | _ => ""

/-- Node `fs.writeFileSync(p, bytes)`: create or overwrite. -/
def fsWrite (fs : FS) (p : String) (b : List Nat) : FS :=
  if fs.any (fun e => e.1 = p) then
    fs.map (fun e => if e.1 = p then (e.1, FileData.binary b) else e)
  else
    fs ++ [(p, FileData.binary b)]

/-- Outcome of one `generateGeoipDat` run: resulting file system, stderr
lines (`console.error`) and stdout lines (`console.log`). -/
structure RunResult where
  fs : FS
  stderrLines : List String
  stdoutLines : List String
deriving DecidableEq

/-- Source `generateGeoipDat` (lines 198–291) over the file-system model:
bail out with an error when the input is missing; otherwise parse, build
the entry table, serialize and write the output file. -/
def generateGeoipDat (fs : FS) (inputFile outputFile : String) : RunResult :=
  if fsExists fs inputFile = false then
    { fs := fs
      stderrLines :=
        ["Error: Input file " ++ inputFile ++ " does not exist."]
      stdoutLines := [] }
  else
    let isIpdb := jsExtname inputFile == ".ipdb"
    let data := fsReadText fs inputFile
    let fileBuffer := generateBytes isIpdb data
    { fs := fsWrite fs outputFile fileBuffer
      stderrLines := []
      stdoutLines :=
        ["Generated " ++ outputFile ++ " with " ++
          toString (buildTable isIpdb data).length ++ " entries"] }

/-!  Specification-side definitions, written from the claims' words, to be
compared with the source-side definitions above.  -/

/-- Spec-side encoder for one GeoIP entry, following the claim's words:
tag byte `0x0A`, 4-byte LE length of the UTF-8 encoding of the code and
those bytes; per CIDR the tag byte `0x12`, a 4-byte LE length and the
8-byte CIDR sub-message; then the tag byte `0x18` and the byte `0x00`. -/
def specGeoIpEntry (countryCode : String) (cidrs : List (String × Nat)) :
    List Nat :=
  0x0A :: (le32 (utf8Encode countryCode).length ++ utf8Encode countryCode)
    ++ (cidrs.map (fun cidr =>
          0x12 :: (le32 8 ++ writeCidr cidr.1 cidr.2))).flatten
    ++ [0x18, 0x00]

/-- Spec-side: the codes of the six carrier entries of the table (the
entries under the source's 运营商 comment). -/
def carrierCodes : List String := ["DX", "LT", "YD", "TT", "HS", "UN"]

/-- Spec-side: the known region names of the table (the keys under the
source's 省份 comment). -/
def regionNames : List String :=
  ["北京", "上海", "天津", "重庆", "广东", "浙江", "江苏", "山东",
   "福建", "安徽", "河南", "湖北", "湖南", "江西", "四川", "陕西",
   "山西", "辽宁", "吉林", "黑龙江", "河北", "台湾", "海南", "甘肃",
   "宁夏", "青海", "新疆", "西藏", "内蒙古", "广西", "贵州", "云南",
   "香港", "澳门"]

/-- Spec-side: a well-formed dotted-decimal IPv4 address — exactly four
dot-separated fields, each a non-empty run of decimal digits whose value
is at most 255. -/
def specValidIPv4 (ip : String) : Bool :=
  let parts := jsSplit ip '.'
  parts.length = 4 &&
    parts.all (fun p =>
      !p.toList.isEmpty && p.toList.all Char.isDigit &&
        decValue p.toList ≤ 255)

/-- Spec-side: append a code unless it was already seen. -/
def insNew (ks : List String) (c : String) : List String :=
  if c ∈ ks then ks else ks ++ [c]

/-- Spec-side first-seen deduplication: keep each code at the position of
its first occurrence. -/
def firstSeen (codes : List String) : List String :=
  codes.foldl insNew []

/-- Spec-side: the `i`-th pipe-separated field of a trimmed line (empty
when absent). -/
def pipeField (line : String) (i : Nat) : String :=
  ((jsSplit (jsTrim line) '|')[i]?).getD ""

/-- All codes produced across the input's lines, in scan order. -/
def allCodes (isIpdb : Bool) (data : String) : List String :=
  ((inputLines data).map (codesOfLine isIpdb)).flatten

/-!  ## Helper lemmas  -/

theorem jsOrElse_some (v y : String) :
    jsOrElse (some v) y = if v = "" then y else v := rfl

theorem jsOrElse_none (y : String) : jsOrElse none y = y := rfl

theorem toList_asString (l : List Char) : (List.asString l).toList = l := rfl

/-- Incremental buffer concatenation is the flattening of the blocks. -/
theorem foldl_append_blocks {α : Type} (f : α → List Nat) (init : List Nat)
    (l : List α) :
    l.foldl (fun buf x => buf ++ f x) init = init ++ (l.map f).flatten := by
  induction l generalizing init with
  | nil => simp
  | cons x xs ih => simp [ih]

/-- The function `writeCidr` always produces exactly 8 bytes. -/
theorem writeCidr_length (ip : String) (prefixLen : Nat) :
    (writeCidr ip prefixLen).length = 8 := by
  unfold writeCidr
  by_cases h : (jsSplit ip '.').length = 4
  · simp [h, le32]
  · simp [h, le32]

/-- The CIDR loop of `writeGeoIpEntry` appends one tagged block per CIDR. -/
theorem entry_cidr_blocks (cidrs : List (String × Nat)) (buf : List Nat) :
    cidrs.foldl (fun b cidr =>
        b ++ [(2 <<< 3) ||| 2] ++ le32 (writeCidr cidr.1 cidr.2).length
          ++ writeCidr cidr.1 cidr.2) buf
      = buf ++ (cidrs.map (fun cidr =>
          0x12 :: (le32 8 ++ writeCidr cidr.1 cidr.2))).flatten := by
  induction cidrs generalizing buf with
  | nil => simp
  | cons x xs ih =>
    rw [List.foldl_cons, ih, writeCidr_length,
      show ((2 <<< 3) ||| 2 : Nat) = 18 from by decide]
    simp

/-- The serialized file is the 4-byte LE count followed by the entries. -/
theorem generateBytes_eq (isIpdb : Bool) (data : String) :
    generateBytes isIpdb data
      = le32 (buildTable isIpdb data).length
        ++ ((buildTable isIpdb data).map
             (fun e => writeGeoIpEntry e.1 e.2)).flatten := by
  simp only [generateBytes]
  have h := foldl_append_blocks (fun e => writeGeoIpEntry e.1 e.2)
    ([] ++ le32 (buildTable isIpdb data).length) (buildTable isIpdb data)
  simp only [List.nil_append] at h ⊢
  exact h

/-- A found value of the table is among the table's values. -/
theorem get_mem_values {k v : String} (h : pinyinMapGet k = some v) :
    v ∈ pinyinMap.map Prod.snd := by
  unfold pinyinMapGet at h
  obtain ⟨p, hp, rfl⟩ := Option.map_eq_some'.mp h
  exact List.mem_map.mpr ⟨p, List.mem_of_find?_eq_some hp, rfl⟩

/-- No value of the static table is the empty string (so the JS `||`
fallback never fires on a lookup hit). -/
theorem pinyinMap_values_ne_empty : ∀ v ∈ pinyinMap.map Prod.snd, v ≠ "" := by
  decide

/-- Lookup misses exactly the keys not in the table. -/
theorem pinyinMapGet_eq_none {name : String}
    (h : name ∉ pinyinMap.map Prod.fst) : pinyinMapGet name = none := by
  unfold pinyinMapGet
  rw [Option.map_eq_none']
  rw [List.find?_eq_none]
  intro p hp
  simp only [decide_eq_true_eq]
  intro hfst
  exact h (List.mem_map.mpr ⟨p, hp, hfst⟩)

/-- Applying `addEntry` affects the key sequence like `insNew`. -/
theorem keys_addEntry (es : EntryTable) (code : String) :
    (addEntry es code).map Prod.fst = insNew (es.map Prod.fst) code := by
  unfold addEntry insNew
  by_cases h : code ∈ es.map Prod.fst
  · have ha : es.any (fun e => e.1 = code) = true := by
      rw [List.any_eq_true]
      obtain ⟨e, he, hfst⟩ := List.mem_map.mp h
      exact ⟨e, he, by simp [hfst]⟩
    rw [if_pos ha, if_pos h, List.map_map]
    apply List.map_congr_left
    intro e _
    by_cases hc : e.1 = code <;> simp [hc]
  · have ha : ¬ es.any (fun e => e.1 = code) = true := by
      rw [List.any_eq_true]
      rintro ⟨e, he, hfst⟩
      simp only [decide_eq_true_eq] at hfst
      exact h (List.mem_map.mpr ⟨e, he, hfst⟩)
    rw [if_neg ha, if_neg h]
    simp

/-- Folding `addEntry` affects the key sequence like folding `insNew`. -/
theorem keys_foldl_addEntry (codes : List String) (es : EntryTable) :
    ((codes.foldl addEntry es).map Prod.fst)
      = codes.foldl insNew (es.map Prod.fst) := by
  induction codes generalizing es with
  | nil => rfl
  | cons c cs ih => rw [List.foldl_cons, List.foldl_cons, ih, keys_addEntry]

/-- Line processing affects the key sequence like per-code `insNew`. -/
theorem keys_foldl_lines (isIpdb : Bool) (lines : List String)
    (es : EntryTable) :
    ((lines.foldl (processLine isIpdb) es).map Prod.fst)
      = lines.foldl
          (fun ks l => (codesOfLine isIpdb l).foldl insNew ks)
          (es.map Prod.fst) := by
  induction lines generalizing es with
  | nil => rfl
  | cons l ls ih =>
    rw [List.foldl_cons, List.foldl_cons, ih]
    rw [show processLine isIpdb es l
          = (codesOfLine isIpdb l).foldl addEntry es from rfl,
      keys_foldl_addEntry]

/-- The table's keys are the first-seen deduplication of all codes. -/
theorem keys_buildTable (isIpdb : Bool) (data : String) :
    (buildTable isIpdb data).map Prod.fst
      = firstSeen (allCodes isIpdb data) := by
  unfold buildTable firstSeen allCodes
  rw [List.foldl_flatten, List.foldl_map, keys_foldl_lines]
  rfl

/-- Folding `insNew` preserves `Nodup`. -/
theorem nodup_foldl_insNew (codes : List String) (ks : List String)
    (h : ks.Nodup) : (codes.foldl insNew ks).Nodup := by
  induction codes generalizing ks with
  | nil => exact h
  | cons c cs ih =>
    rw [List.foldl_cons]
    apply ih
    unfold insNew
    by_cases hc : c ∈ ks
    · simpa [hc]
    · simp [hc, List.nodup_append, h]

/-- Membership after folding `insNew`. -/
theorem mem_foldl_insNew (codes : List String) (ks : List String)
    (x : String) :
    x ∈ codes.foldl insNew ks ↔ x ∈ ks ∨ x ∈ codes := by
  induction codes generalizing ks with
  | nil => simp
  | cons c cs ih =>
    rw [List.foldl_cons, ih]
    unfold insNew
    by_cases hc : c ∈ ks
    · rw [if_pos hc]
      constructor
      · rintro (h | h)
        · exact Or.inl h
        · exact Or.inr (List.mem_cons_of_mem c h)
      · rintro (h | h)
        · exact Or.inl h
        · rcases List.mem_cons.mp h with rfl | h
          · exact Or.inl hc
          · exact Or.inr h
    · rw [if_neg hc]
      constructor
      · rintro (h | h)
        · rcases List.mem_append.mp h with h | h
          · exact Or.inl h
          · exact Or.inr (List.mem_cons.mpr (Or.inl (List.mem_singleton.mp h)))
        · exact Or.inr (List.mem_cons_of_mem c h)
      · rintro (h | h)
        · exact Or.inl (List.mem_append.mpr (Or.inl h))
        · rcases List.mem_cons.mp h with rfl | h
          · exact Or.inl (List.mem_append.mpr (Or.inr (List.mem_singleton.mpr rfl)))
          · exact Or.inr h

/-- In range, `l[i]? = some (l[i]?.getD d)`. -/
theorem getElem?_eq_some_getD {l : List String} {i : Nat} (d : String)
    (h : i < l.length) : l[i]? = some (l[i]?.getD d) := by
  rw [List.getElem?_eq_getElem h]
  rfl

/-!  ## Claim theorems  -/

/-- C1: `writeGeoIpEntry(c, cidrs)` produces exactly the tag byte `0x0A`,
the 4-byte LE length of the UTF-8 encoding of `c` and those bytes; then,
per CIDR in order, the tag byte `0x12`, the 4-byte LE length of the CIDR
sub-message (always 8) and the 8-byte sub-message; then the tag byte
`0x18` followed by the byte `0x00`. -/
theorem c1_entry_encoding (countryCode : String)
    (cidrs : List (String × Nat)) :
    writeGeoIpEntry countryCode cidrs = specGeoIpEntry countryCode cidrs := by
  simp only [writeGeoIpEntry, specGeoIpEntry, writeString]
  rw [entry_cidr_blocks,
    show ((1 <<< 3) ||| 2 : Nat) = 10 from by decide,
    show ((3 <<< 3) ||| 0 : Nat) = 24 from by decide]
  simp

/-- C3 (counterexample): `"1.2.3.300"` is a malformed IPv4 address string,
yet `writeCidr` does not emit four zero address bytes for it — the fourth
byte is `300 mod 256 = 44`. -/
theorem c3_counterexample :
    specValidIPv4 "1.2.3.300" = false
    ∧ (writeCidr "1.2.3.300" 24).take 4 = [1, 2, 3, 44]
    ∧ (writeCidr "1.2.3.300" 24).take 4 ≠ [0, 0, 0, 0] := by decide

/-- C3 (amended): `writeCidr` never fails and returns exactly 8 bytes —
4 address bytes then the 4-byte LE prefix length; the address bytes are
all zero whenever the string does not split on `.` into exactly 4 parts,
and otherwise each byte is the JS `parseInt` of its part coerced to an
unsigned byte (so a malformed 4-part address may yield nonzero bytes). -/
theorem c3_amended (ip : String) (prefixLen : Nat)
    (_hp : prefixLen < 2 ^ 32) :
    (writeCidr ip prefixLen).length = 8
    ∧ (writeCidr ip prefixLen).drop 4 = le32 prefixLen
    ∧ ((jsSplit ip '.').length ≠ 4 →
        (writeCidr ip prefixLen).take 4 = [0, 0, 0, 0])
    ∧ ((jsSplit ip '.').length = 4 →
        (writeCidr ip prefixLen).take 4
          = (jsSplit ip '.').map jsByteOfPart) := by
  refine ⟨writeCidr_length ip prefixLen, ?_, ?_, ?_⟩
  · simp only [writeCidr]
    by_cases h : (jsSplit ip '.').length = 4
    · rw [if_pos h]
      exact List.drop_left' (by simp [h])
    · rw [if_neg h]
      exact List.drop_left' (by simp)
  · intro h
    simp only [writeCidr]
    rw [if_neg h]
    exact List.take_left' (by simp)
  · intro h
    simp only [writeCidr]
    rw [if_pos h]
    exact List.take_left' (by simp [h])

/-- C3 (witness): the amended theorem at `ip = "1.2.3"`, `prefixLen = 5`. -/
theorem c3_witness :
    (writeCidr "1.2.3" 5).take 4 = [0, 0, 0, 0]
    ∧ (writeCidr "1.2.3" 5).length = 8
    ∧ (writeCidr "1.2.3" 5).drop 4 = le32 5 :=
  ⟨(c3_amended "1.2.3" 5 (by norm_num)).2.2.1 (by decide),
   (c3_amended "1.2.3" 5 (by norm_num)).1,
   (c3_amended "1.2.3" 5 (by norm_num)).2.1⟩

/-- C2: for any input on the file-system model whose input file exists,
the run writes to the output path exactly the 4-byte LE count of the
entry table followed by the encoded entries concatenated with no
separators; the table's key sequence is duplicate-free and equals the
first-seen ordering of all codes produced across the processed lines. -/
theorem c2_file_layout (fs : FS) (inputFile outputFile : String)
    (hin : fsExists fs inputFile = true) :
    (generateGeoipDat fs inputFile outputFile).fs
      = fsWrite fs outputFile
          (le32 (buildTable (jsExtname inputFile == ".ipdb")
              (fsReadText fs inputFile)).length
            ++ ((buildTable (jsExtname inputFile == ".ipdb")
                  (fsReadText fs inputFile)).map
                 (fun e => writeGeoIpEntry e.1 e.2)).flatten)
    ∧ (buildTable (jsExtname inputFile == ".ipdb")
        (fsReadText fs inputFile)).map Prod.fst
        = firstSeen (allCodes (jsExtname inputFile == ".ipdb")
            (fsReadText fs inputFile))
    ∧ ((buildTable (jsExtname inputFile == ".ipdb")
         (fsReadText fs inputFile)).map Prod.fst).Nodup
    ∧ ∀ c, (c ∈ (buildTable (jsExtname inputFile == ".ipdb")
              (fsReadText fs inputFile)).map Prod.fst
            ↔ c ∈ allCodes (jsExtname inputFile == ".ipdb")
                (fsReadText fs inputFile)) := by
  have hno : ¬ fsExists fs inputFile = false := by simp [hin]
  refine ⟨?_, keys_buildTable _ _, ?_, ?_⟩
  · simp only [generateGeoipDat]
    rw [if_neg hno, generateBytes_eq]
  · rw [keys_buildTable]
    exact nodup_foldl_insNew _ _ List.nodup_nil
  · intro c
    rw [keys_buildTable]
    unfold firstSeen
    rw [mem_foldl_insNew]
    simp

/-- C2 (witness): the layout theorem at a concrete two-line input, whose
table keys come out in first-seen order. -/
theorem c2_witness :
    (generateGeoipDat
        [("data.txt", FileData.text "中国|广东|深圳|联通\n中国|北京|北京|电信")]
        "data.txt" "geoip.dat").fs
      = fsWrite
          [("data.txt", FileData.text "中国|广东|深圳|联通\n中国|北京|北京|电信")]
          "geoip.dat"
          (le32 (buildTable false "中国|广东|深圳|联通\n中国|北京|北京|电信").length
            ++ ((buildTable false "中国|广东|深圳|联通\n中国|北京|北京|电信").map
                 (fun e => writeGeoIpEntry e.1 e.2)).flatten)
    ∧ (buildTable false "中国|广东|深圳|联通\n中国|北京|北京|电信").map Prod.fst
        = ["4-LT-GD", "4-LT-GD-shenzhen", "4-DX-BJ"] :=
  ⟨(c2_file_layout
      [("data.txt", FileData.text "中国|广东|深圳|联通\n中国|北京|北京|电信")]
      "data.txt" "geoip.dat" (by decide)).1,
   ((c2_file_layout
      [("data.txt", FileData.text "中国|广东|深圳|联通\n中国|北京|北京|电信")]
      "data.txt" "geoip.dat" (by decide)).2.1).trans (by decide)⟩

/-- C4 (counterexample): `getIspCode` does not restrict its lookup to the
carrier entries — for the ISP name `"北京"` it returns the region code
`"BJ"`, which is neither a mapped carrier code nor the sentinel. -/
theorem c4_counterexample :
    getIspCode "北京" = "BJ" ∧ "BJ" ∉ carrierCodes ∧ "BJ" ≠ "UN" := by
  decide

/-- C4 (amended): `getIspCode` looks up the first two characters of the
name (or the single character, if the name has length one) in the full
shared static table: on a lookup hit it returns exactly that key's mapped
code — possibly a region code —, and on lookup miss or empty input it
returns the sentinel `"UN"`; so its result is always either one of the
table's mapped codes or `"UN"`, and it depends only on the first two
characters; `getIspCode "电信" = "DX"` and `getIspCode "" = "UN"`. -/
theorem c4_amended :
    (∀ (ispName v : String), 2 ≤ ispName.toList.length →
        pinyinMapGet (jsSubstringTo ispName 2) = some v →
        getIspCode ispName = v)
    ∧ (∀ ispName : String, 2 ≤ ispName.toList.length →
        pinyinMapGet (jsSubstringTo ispName 2) = none →
        getIspCode ispName = "UN")
    ∧ (∀ (ispName v : String), ispName.toList.length = 1 →
        pinyinMapGet ispName = some v →
        getIspCode ispName = v)
    ∧ (∀ ispName : String, ispName.toList.length = 1 →
        pinyinMapGet ispName = none →
        getIspCode ispName = "UN")
    ∧ (∀ ispName : String, ispName.toList.length = 0 →
        getIspCode ispName = "UN")
    ∧ (∀ ispName : String,
        getIspCode ispName = "UN"
        ∨ getIspCode ispName ∈ pinyinMap.map Prod.snd)
    ∧ (∀ ispName : String, 2 ≤ ispName.toList.length →
        getIspCode ispName = getIspCode (jsSubstringTo ispName 2))
    ∧ getIspCode "电信" = "DX"
    ∧ getIspCode "" = "UN" := by
  refine ⟨?_, ?_, ?_, ?_, ?_, ?_, ?_, by decide, by decide⟩
  · intro n v h2 hget
    unfold getIspCode
    rw [if_pos h2, hget, jsOrElse_some,
      if_neg (pinyinMap_values_ne_empty v (get_mem_values hget))]
  · intro n h2 hget
    unfold getIspCode
    rw [if_pos h2, hget]
    rfl
  · intro n v h1 hget
    unfold getIspCode
    rw [if_neg (by omega), if_pos h1, hget, jsOrElse_some,
      if_neg (pinyinMap_values_ne_empty v (get_mem_values hget))]
  · intro n h1 hget
    unfold getIspCode
    rw [if_neg (by omega), if_pos h1, hget]
    rfl
  · intro n h0
    unfold getIspCode
    rw [if_neg (by omega), if_neg (by omega)]
  · intro n
    unfold getIspCode
    by_cases h2 : 2 ≤ n.toList.length
    · rw [if_pos h2]
      cases hg : pinyinMapGet (jsSubstringTo n 2) with
      | none => exact Or.inl (jsOrElse_none "UN")
      | some v =>
        rw [jsOrElse_some]
        by_cases hv : v = ""
        · exact Or.inl (if_pos hv)
        · rw [if_neg hv]
          exact Or.inr (get_mem_values hg)
    · rw [if_neg h2]
      by_cases h1 : n.toList.length = 1
      · rw [if_pos h1]
        cases hg : pinyinMapGet n with
        | none => exact Or.inl (jsOrElse_none "UN")
        | some v =>
          rw [jsOrElse_some]
          by_cases hv : v = ""
          · exact Or.inl (if_pos hv)
          · rw [if_neg hv]
            exact Or.inr (get_mem_values hg)
      · rw [if_neg h1]
        exact Or.inl rfl
  · intro n h2
    have hlist : (jsSubstringTo n 2).toList = n.toList.take 2 := rfl
    have hlen : (jsSubstringTo n 2).toList.length = 2 := by
      rw [hlist, List.length_take]
      exact Nat.min_eq_left h2
    have hidem : jsSubstringTo (jsSubstringTo n 2) 2 = jsSubstringTo n 2 := by
      unfold jsSubstringTo
      rw [toList_asString, List.take_take]
      norm_num
    unfold getIspCode
    rw [if_pos h2, if_pos hlen.symm.le, hidem]

/-- C4 (witness): the amended theorem at concrete names — a two-character
lookup hit through a region key (`"北京电信"` starts with `"北京"`), a
two-character lookup miss (`"测试"`), a one-character lookup miss
(`"动"`), and the prefix property at `"移动测试"`. -/
theorem c4_witness :
    getIspCode "北京电信" = "BJ"
    ∧ getIspCode "测试" = "UN"
    ∧ getIspCode "动" = "UN"
    ∧ getIspCode "移动测试" = getIspCode (jsSubstringTo "移动测试" 2) :=
  ⟨c4_amended.1 "北京电信" "BJ" (by decide) (by decide),
   c4_amended.2.1 "测试" (by decide) (by decide),
   c4_amended.2.2.2.1 "动" (by decide) (by decide),
   c4_amended.2.2.2.2.2.2.1 "移动测试" (by decide)⟩

/-- C5 (counterexample): `"电信"` is not a known region name and is
non-empty, yet `getStandardRegionCode` maps it to `"DX"` through the
shared table instead of the upper-cased first three characters. -/
theorem c5_counterexample :
    "电信" ∉ regionNames
    ∧ "电信" ≠ ""
    ∧ getStandardRegionCode "电信" = "DX"
    ∧ getStandardRegionCode "电信"
        ≠ jsToUpperCase (jsSubstringTo "电信" 3) := by
  decide

/-- C5 (amended): for every name in the full static table (carrier names
included) `getStandardRegionCode` returns the mapped code, and for every
name not in the table it returns the upper-cased first three
characters. -/
theorem c5_amended :
    (∀ kv ∈ pinyinMap, getStandardRegionCode kv.1 = kv.2)
    ∧ (∀ name : String, name ∉ pinyinMap.map Prod.fst →
        getStandardRegionCode name
          = jsToUpperCase (jsSubstringTo name 3)) := by
  refine ⟨by decide, ?_⟩
  intro name h
  unfold getStandardRegionCode
  rw [pinyinMapGet_eq_none h]
  rfl

/-- C5 (witness): the amended theorem at the unmapped name `"foo"`. -/
theorem c5_witness : getStandardRegionCode "foo" = "FOO" :=
  (c5_amended.2 "foo" (by decide)).trans (by decide)

/-- C6: the plain-text parser splits the trimmed line on `|`; a line with
fewer than 4 fields is rejected (and the driver then adds nothing —
no partial record); with at least 4 fields the record is built from the
first four fields, the city falling back to the region and the isp to the
sentinel `"未知"` when the respective field is empty. -/
theorem c6_pipe_parsing (line : String) (entries : EntryTable) :
    (parsePlainLine line = none
      ↔ (jsSplit (jsTrim line) '|').length < 4)
    ∧ (4 ≤ (jsSplit (jsTrim line) '|').length →
        parsePlainLine line = some
          { country := pipeField line 0
            region := pipeField line 1
            city := if pipeField line 2 = "" then pipeField line 1
                    else pipeField line 2
            ispDomain := if pipeField line 3 = "" then "未知"
                         else pipeField line 3 })
    ∧ (parsePlainLine line = none →
        codesOfLine false line = []
        ∧ processLine false entries line = entries) := by
  refine ⟨?_, ?_, ?_⟩
  · simp only [parsePlainLine]
    by_cases h : (jsSplit (jsTrim line) '|').length < 4
    · simp [h]
    · simp [h]
  · intro h4
    have hlt : ¬ (jsSplit (jsTrim line) '|').length < 4 := not_lt.mpr h4
    simp only [parsePlainLine]
    rw [if_neg hlt,
      getElem?_eq_some_getD "" (show 2 < (jsSplit (jsTrim line) '|').length
        by omega),
      getElem?_eq_some_getD "" (show 3 < (jsSplit (jsTrim line) '|').length
        by omega)]
    rfl
  · intro hnone
    have hc : codesOfLine false line = [] := by
      unfold codesOfLine lineFields
      simp [hnone]
    refine ⟨hc, ?_⟩
    unfold processLine
    rw [hc]
    rfl

/-- C6 (witness): the parser theorem at a 2-field line (rejected, nothing
added) and at a 4-field line with an empty city (falls back to the
region). -/
theorem c6_witness :
    parsePlainLine "中国|广东" = none
    ∧ codesOfLine false "中国|广东" = []
    ∧ processLine false [] "中国|广东" = []
    ∧ parsePlainLine "中国|广东||联通"
        = some { country := "中国", region := "广东", city := "广东",
                 ispDomain := "联通" } :=
  ⟨(c6_pipe_parsing "中国|广东" []).1.mpr (by decide),
   ((c6_pipe_parsing "中国|广东" []).2.2
      ((c6_pipe_parsing "中国|广东" []).1.mpr (by decide))).1,
   ((c6_pipe_parsing "中国|广东" []).2.2
      ((c6_pipe_parsing "中国|广东" []).1.mpr (by decide))).2,
   ((c6_pipe_parsing "中国|广东||联通" []).2.1 (by decide)).trans (by decide)⟩

/-- C7: for country `"中国"` the generator always emits the short code
`"<ver>-<isp>-<region>"` and adds the long code with the city's pinyin
exactly when the city is non-empty and differs from the region; the line
`中国|广东|深圳|联通` yields `["4-LT-GD", "4-LT-GD-shenzhen"]` and the
record `中国, 北京, 北京, 电信` yields `["4-DX-BJ"]` only. -/
theorem c7_code_generation :
    (∀ regionNm cityNm ispNm : String,
      createCountryCodes "中国" regionNm cityNm "4" ispNm
        = if cityNm ≠ "" ∧ cityNm ≠ regionNm then
            ["4" ++ "-" ++ getIspCode ispNm ++ "-"
               ++ getStandardRegionCode regionNm,
             "4" ++ "-" ++ getIspCode ispNm ++ "-"
               ++ getStandardRegionCode regionNm ++ "-"
               ++ getCityPinyin cityNm]
          else
            ["4" ++ "-" ++ getIspCode ispNm ++ "-"
               ++ getStandardRegionCode regionNm])
    ∧ codesOfLine false "中国|广东|深圳|联通" = ["4-LT-GD", "4-LT-GD-shenzhen"]
    ∧ codesOfLine false "中国|北京|北京|电信" = ["4-DX-BJ"] :=
  ⟨fun _ _ _ => rfl, by decide, by decide⟩

/-- C8: a line whose parsed country differs from `"中国"` (or that does
not parse) produces zero country codes and leaves the entry table — and
hence the output file — unchanged. -/
theorem c8_only_china (isIpdb : Bool) (line : String) (entries : EntryTable)
    (h : ∀ f, lineFields isIpdb line = some f → f.country ≠ "中国") :
    codesOfLine isIpdb line = []
    ∧ processLine isIpdb entries line = entries := by
  have hc : codesOfLine isIpdb line = [] := by
    unfold codesOfLine
    cases hf : lineFields isIpdb line with
    | none => rfl
    | some f =>
      simp [h f hf]
  refine ⟨hc, ?_⟩
  unfold processLine
  rw [hc]
  rfl

/-- C8 (witness): the theorem at the non-China line `美国|广东|深圳|联通`. -/
theorem c8_witness :
    codesOfLine false "美国|广东|深圳|联通" = []
    ∧ processLine false [("4-DX-BJ", [("192.168.1.0", 24)])]
        "美国|广东|深圳|联通" = [("4-DX-BJ", [("192.168.1.0", 24)])] :=
  c8_only_china false "美国|广东|深圳|联通" [("4-DX-BJ", [("192.168.1.0", 24)])]
    (fun f hf => by
      rw [show lineFields false "美国|广东|深圳|联通"
            = some { country := "美国", region := "广东", city := "深圳",
                     ispDomain := "联通" } from by decide] at hf
      cases Option.some.inj hf
      decide)

/-- C9: when the input path does not exist the run reports an error,
writes nothing (the file system is returned untouched) and logs no
success line. -/
theorem c9_missing_input (fs : FS) (inputFile outputFile : String)
    (h : fsExists fs inputFile = false) :
    (generateGeoipDat fs inputFile outputFile).fs = fs
    ∧ (generateGeoipDat fs inputFile outputFile).stderrLines
        = ["Error: Input file " ++ inputFile ++ " does not exist."]
    ∧ (generateGeoipDat fs inputFile outputFile).stdoutLines = [] := by
  simp only [generateGeoipDat]
  rw [if_pos h]
  exact ⟨rfl, rfl, rfl⟩

/-- C9 (witness): the theorem on an empty file system with the default
paths. -/
theorem c9_witness :
    (generateGeoipDat [] "qqwry.ipdb" "geoip.dat").fs = []
    ∧ (generateGeoipDat [] "qqwry.ipdb" "geoip.dat").stderrLines
        = ["Error: Input file qqwry.ipdb does not exist."]
    ∧ (generateGeoipDat [] "qqwry.ipdb" "geoip.dat").stdoutLines = [] :=
  c9_missing_input [] "qqwry.ipdb" "geoip.dat" (by decide)

/-- C10: when the input file exists but its lines yield no entries, the
run still completes (one summary line, no error) and writes the output
file, whose content is exactly the four bytes `00 00 00 00`. -/
theorem c10_empty_table (fs : FS) (inputFile outputFile : String)
    (hex : fsExists fs inputFile = true)
    (hempty : buildTable (jsExtname inputFile == ".ipdb")
        (fsReadText fs inputFile) = []) :
    (generateGeoipDat fs inputFile outputFile).fs
      = fsWrite fs outputFile [0, 0, 0, 0]
    ∧ (generateGeoipDat fs inputFile outputFile).stderrLines = []
    ∧ (generateGeoipDat fs inputFile outputFile).stdoutLines.length = 1 := by
  have hno : ¬ fsExists fs inputFile = false := by simp [hex]
  have hb : generateBytes (jsExtname inputFile == ".ipdb")
      (fsReadText fs inputFile) = [0, 0, 0, 0] := by
    rw [generateBytes_eq, hempty]
    rfl
  simp only [generateGeoipDat]
  rw [if_neg hno]
  refine ⟨?_, rfl, rfl⟩
  rw [hb]

/-- C10 (witness): the theorem at an input containing only a blank line,
a malformed line and a non-China record. -/
theorem c10_witness :
    (generateGeoipDat [("a.txt", FileData.text "hello\n\n美国|b|c|d\n")]
        "a.txt" "geoip.dat").fs
      = fsWrite [("a.txt", FileData.text "hello\n\n美国|b|c|d\n")]
          "geoip.dat" [0, 0, 0, 0]
    ∧ (generateGeoipDat [("a.txt", FileData.text "hello\n\n美国|b|c|d\n")]
        "a.txt" "geoip.dat").stderrLines = []
    ∧ (generateGeoipDat [("a.txt", FileData.text "hello\n\n美国|b|c|d\n")]
        "a.txt" "geoip.dat").stdoutLines.length = 1 :=
  c10_empty_table [("a.txt", FileData.text "hello\n\n美国|b|c|d\n")]
    "a.txt" "geoip.dat" (by decide) (by decide)

end GeoIpDat
